import Mathlib

/-!
musiQ, `musiQ/Engine/BASS-Bridging-Header.h`.

The repository's single source file is a bridging header: an include guard
around four `#import` directives (the BASS core header and the FLAC, DSD and
OPUS add-on headers) and one commented-out import (WavPack).

The development embeds the header as its literal text, a lexer that turns the
text into preprocessor lines (comments removed, directives recognised), and
the preprocessor's treatment of those lines over a build environment that
maps a header file name to the set of symbols that file declares.

A second layer keeps, for each header file, its declarations with their
types, so that the toolchain's other diagnostic, the redefinition of a symbol,
can be raised; the first layer is that build with the types left out
(`build_refines_process`).
-/

namespace musiQ.Engine

/-! ## The source text -/

/-- The text of `BASS-Bridging-Header.h`, one string per physical line
(line `n` of the file is entry `n - 1`). -/
def BASS_Bridging_Header_h : List String :=
  [ "//",
    "//  BASS-Bridging-Header.h",
    "//  musiQ",
    "//",
    "//  Bridging header for BASS audio library",
    "//",
    "",
    "#ifndef BASS_Bridging_Header_h",
    "#define BASS_Bridging_Header_h",
    "",
    "// BASS Core Library",
    "#import \"bass.h\"",
    "",
    "// BASS Add-ons for extended format support",
    "#import \"bassflac.h\"   // FLAC support",
    "#import \"bassdsd.h\"    // DSD support",
    "#import \"bassopus.h\"   // OPUS support",
    "// #import \"basswv.h\"     // WavPack support (not downloaded)",
    "",
    "// Note: Uncomment these imports after BASS framework is added to Frameworks/",
    "// Download BASS from: https://www.un4seen.com/",
    "",
    "#endif /* BASS_Bridging_Header_h */" ]

/-- The header with the lines whose (1-based) numbers are in `S` commented
out, that is, prefixed with `// `. -/
def commentOut (S : Finset Nat) (text : List String) : List String :=
  (text.enumFrom 1).map fun p => if p.1 ∈ S then "// " ++ p.2 else p.2

/-! ## Lexing: comments and directives -/

/-- Lexer mode while removing comments. -/
inductive LexMode where
  | code
  | str
  | block
  deriving DecidableEq, Repr

/-- Removes the comments of one physical line. A `//` comment runs to the end
of the line, a block comment is replaced by one blank and may stay open at the
end of the line, and comment openers inside a double-quoted string are text. -/
def stripComments : LexMode → List Char → List Char × LexMode
  | .block, [] => ([], .block)
  | _, [] => ([], .code)
  | .code, [c] => ([c], if c = '"' then .str else .code)
  | .code, c :: d :: cs =>
    if c = '/' ∧ d = '/' then ([], .code)
    else if c = '/' ∧ d = '*' then stripComments .block cs
    else
      let r := stripComments (if c = '"' then .str else .code) (d :: cs)
      (c :: r.1, r.2)
  | .str, c :: cs =>
    let r := stripComments (if c = '"' then .code else .str) cs
    (c :: r.1, r.2)
  | .block, [_] => ([], .block)
  | .block, c :: d :: cs =>
    if c = '*' ∧ d = '/' then
      let r := stripComments .code cs
      (' ' :: r.1, r.2)
    else stripComments .block (d :: cs)

/-- A preprocessor directive. The fragment modelled is the one the header is
written in (conditionals on a macro being defined, definitions, imports);
every other directive, and a malformed one, is `other`. -/
inductive Directive where
  | ifDefined (m : String)
  | ifNotDefined (m : String)
  | define (m : String)
  | undefine (m : String)
  | importFile (file : String)
  | endif
  | other
  deriving DecidableEq, Repr

/-- A physical line after comment removal: nothing but blanks, a directive,
or program text (which the header does not contain). -/
inductive Line where
  | blank
  | directive (d : Directive)
  | text
  deriving DecidableEq, Repr

/-- Characters of a macro name. -/
def isIdentChar (c : Char) : Bool := c.isAlphanum || c = '_'

/-- The macro name at the start of the argument text, if there is one. -/
def macroName (args : List Char) : Option String :=
  match args.takeWhile isIdentChar with
  | [] => none
  | cs => some (String.mk cs)

/-- The file name of `"file"` or `<file>` at the start of the argument text. -/
def fileName : List Char → Option String
  | [] => none
  | c :: cs =>
    let close := if c = '"' then some '"' else if c = '<' then some '>' else none
    match close with
    | none => none
    | some q =>
      if q ∈ cs then some (String.mk (cs.takeWhile fun x => x ≠ q)) else none

/-- The directive with the given name and argument text. -/
def parseDirective (name : String) (args : List Char) : Directive :=
  if name = "endif" then .endif
  else if name = "ifdef" then (macroName args).elim .other .ifDefined
  else if name = "ifndef" then (macroName args).elim .other .ifNotDefined
  else if name = "define" then (macroName args).elim .other .define
  else if name = "undef" then (macroName args).elim .other .undefine
  else if name = "import" then (fileName args).elim .other .importFile
  else .other

/-- Classifies a line whose comments have been removed. -/
def parseLine (cs : List Char) : Line :=
  match cs.dropWhile Char.isWhitespace with
  | [] => .blank
  | c :: rest =>
    if c = '#' then
      let body := rest.dropWhile Char.isWhitespace
      .directive (parseDirective (String.mk (body.takeWhile isIdentChar))
        ((body.dropWhile isIdentChar).dropWhile Char.isWhitespace))
    else .text

/-- Lexes the lines of a file, carrying an open block comment from one line
to the next. -/
def lexLines : LexMode → List String → List Line
  | _, [] => []
  | m, l :: ls =>
    let r := stripComments m l.data
    parseLine r.1 :: lexLines r.2 ls

/-- The lines of a file as the preprocessor sees them. -/
def lex (text : List String) : List Line := lexLines .code text

/-! ## Preprocessing -/

/-- A symbol declared by a header file. -/
abbrev Symbol := String

/-- A build environment: the header files the toolchain can find, each with
the set of symbols it declares. A file that is absent maps to `none`. -/
abbrev Env := String → Option (Finset Symbol)

/-- The state of the preprocessor inside one translation unit. -/
structure PPState where
  /-- Macros defined so far. -/
  macros : Finset String
  /-- Symbols made visible so far. -/
  symbols : Finset Symbol
  /-- Files already brought in by `#import`, which reads a file once. -/
  imported : Finset String
  /-- Open conditionals, innermost first: whether each one's group is kept. -/
  conds : List Bool
  deriving DecidableEq

/-- A diagnostic that stops the build. The two `unsupported` diagnostics
report input outside the fragment modelled, reached in a kept group. -/
inductive PPError where
  | fileNotFound (file : String)
  | redefinition (symbol : String)
  | unsupportedDirective
  | endifWithoutIf
  | unterminatedConditional
  | unsupportedText
  deriving DecidableEq, Repr

deriving instance DecidableEq for Except

/-- The state at the start of a translation unit. -/
def PPState.initial : PPState :=
  { macros := ∅, symbols := ∅, imported := ∅, conds := [] }

/-- Whether the current line lies in a group that is kept. -/
def PPState.active (st : PPState) : Bool := st.conds.all id

/-- Effect of one directive on the symbol names that are visible. In a skipped
group only the nesting of conditionals is followed. An environment of this
kind records which symbols a file declares and not how it declares them, so
the only diagnostic an import can raise here is `fileNotFound`; the
diagnostic for two declarations of one symbol that disagree is raised by
`buildDirective`, over environments that keep the declarations. -/
def execDirective (env : Env) (st : PPState) : Directive → Except PPError PPState
  | .ifDefined m => .ok { st with conds := decide (m ∈ st.macros) :: st.conds }
  | .ifNotDefined m => .ok { st with conds := decide (m ∉ st.macros) :: st.conds }
  | .endif =>
    match st.conds with
    | [] => .error .endifWithoutIf
    | _ :: rest => .ok { st with conds := rest }
  | .define m =>
    if st.active then .ok { st with macros := insert m st.macros } else .ok st
  | .undefine m =>
    if st.active then .ok { st with macros := st.macros.erase m } else .ok st
  | .importFile f =>
    if st.active then
      match env f with
      | none => .error (.fileNotFound f)
      | some syms =>
        if f ∈ st.imported then .ok st
        else .ok { st with symbols := st.symbols ∪ syms, imported := insert f st.imported }
    else .ok st
  | .other => if st.active then .error .unsupportedDirective else .ok st

/-- Effect of one line. -/
def step (env : Env) (st : PPState) : Line → Except PPError PPState
  | .blank => .ok st
  | .directive d => execDirective env st d
  | .text => if st.active then .error .unsupportedText else .ok st

/-- Runs the lines in order from a given state, stopping at the first
diagnostic. -/
def run (env : Env) : PPState → List Line → Except PPError PPState
  | st, [] => .ok st
  | st, l :: ls =>
    match step env st l with
    | .error e => .error e
    | .ok st1 => run env st1 ls

/-- Processes a file included at a point where the translation unit is in
state `st`: its lines are run, and a conditional the file opens must be closed
by the end of the file. -/
def processFrom (env : Env) (st : PPState) (text : List String) : Except PPError PPState :=
  match run env { st with conds := [] } (lex text) with
  | .error e => .error e
  | .ok st1 =>
    if st1.conds = [] then .ok { st1 with conds := st.conds }
    else .error .unterminatedConditional

/-- Processes a file at the start of a translation unit. -/
def process (env : Env) (text : List String) : Except PPError PPState :=
  processFrom env PPState.initial text

/-- The include guard's macro. -/
def guardMacro : String := "BASS_Bridging_Header_h"

/-- The files named by the import directives of a file, in order. -/
def importsOf : List Line → List String
  | [] => []
  | .directive (.importFile f) :: ls => f :: importsOf ls
  | _ :: ls => importsOf ls

/-! ## Declarations and the redefinition diagnostic -/

/-- A declaration in a header file: the symbol and the type it is declared
with, as written. -/
structure Decl where
  name : Symbol
  sig : String
  deriving DecidableEq, Repr

/-- A build environment that keeps the declarations of each header file
present, in the order the file makes them. -/
abbrev DeclEnv := String → Option (List Decl)

/-- Whether a declaration clashes with one already visible: the same symbol
declared with a different type. Repeating a declaration is no clash. -/
def clashes (visible : List Decl) (d : Decl) : Bool :=
  visible.any fun v => decide (v.name = d.name) && !decide (v.sig = d.sig)

/-- Makes the declarations of a file visible one by one, stopping with the
redefinition diagnostic at the first that clashes with an earlier one. -/
def declare : List Decl → List Decl → Except PPError (List Decl)
  | visible, [] => .ok visible
  | visible, d :: ds =>
    if clashes visible d then .error (.redefinition d.name)
    else declare (visible ++ [d]) ds

/-- The state of a build that keeps declarations. -/
structure BuildState where
  /-- Macros defined so far. -/
  macros : Finset String
  /-- Declarations made visible so far, oldest first. -/
  decls : List Decl
  /-- Files already brought in by `#import`. -/
  imported : Finset String
  /-- Open conditionals, innermost first. -/
  conds : List Bool
  deriving DecidableEq

/-- The state at the start of a translation unit. -/
def BuildState.initial : BuildState :=
  { macros := ∅, decls := [], imported := ∅, conds := [] }

/-- Whether the current line lies in a group that is kept. -/
def BuildState.active (st : BuildState) : Bool := st.conds.all id

/-- Effect of one directive when declarations are kept: as `execDirective`,
and an import also fails when a declaration of the file clashes with one
already visible. -/
def buildDirective (env : DeclEnv) (st : BuildState) : Directive → Except PPError BuildState
  | .ifDefined m => .ok { st with conds := decide (m ∈ st.macros) :: st.conds }
  | .ifNotDefined m => .ok { st with conds := decide (m ∉ st.macros) :: st.conds }
  | .endif =>
    match st.conds with
    | [] => .error .endifWithoutIf
    | _ :: rest => .ok { st with conds := rest }
  | .define m =>
    if st.active then .ok { st with macros := insert m st.macros } else .ok st
  | .undefine m =>
    if st.active then .ok { st with macros := st.macros.erase m } else .ok st
  | .importFile f =>
    if st.active then
      match env f with
      | none => .error (.fileNotFound f)
      | some ds =>
        if f ∈ st.imported then .ok st
        else
          match declare st.decls ds with
          | .error e => .error e
          | .ok visible => .ok { st with decls := visible, imported := insert f st.imported }
    else .ok st
  | .other => if st.active then .error .unsupportedDirective else .ok st

/-- Effect of one line when declarations are kept. -/
def buildStep (env : DeclEnv) (st : BuildState) : Line → Except PPError BuildState
  | .blank => .ok st
  | .directive d => buildDirective env st d
  | .text => if st.active then .error .unsupportedText else .ok st

/-- Runs the lines in order, keeping declarations. -/
def buildRun (env : DeclEnv) : BuildState → List Line → Except PPError BuildState
  | st, [] => .ok st
  | st, l :: ls =>
    match buildStep env st l with
    | .error e => .error e
    | .ok st1 => buildRun env st1 ls

/-- Builds a file at the start of a translation unit, keeping declarations. -/
def build (env : DeclEnv) (text : List String) : Except PPError BuildState :=
  match buildRun env BuildState.initial (lex text) with
  | .error e => .error e
  | .ok st1 => if st1.conds = [] then .ok st1 else .error .unterminatedConditional

/-- The symbols a list of declarations declares. -/
def namesOf (ds : List Decl) : Finset Symbol := (ds.map fun d => d.name).toFinset

/-- The environment of symbol names behind an environment of declarations. -/
def DeclEnv.toEnv (env : DeclEnv) : Env := fun f => (env f).map namesOf

/-- The preprocessor state behind a build state: the visible symbols are the
names of the visible declarations. -/
def BuildState.toPPState (st : BuildState) : PPState :=
  { macros := st.macros, symbols := namesOf st.decls, imported := st.imported,
    conds := st.conds }

/-- An environment holding the four headers. -/
def sampleEnv : Env := fun f =>
  if f = "bass.h" then some {"BASS_Init", "BASS_Free"}
  else if f = "bassflac.h" then some {"BASS_FLAC_StreamCreateFile"}
  else if f = "bassdsd.h" then some {"BASS_DSD_StreamCreateFile"}
  else if f = "bassopus.h" then some {"BASS_OPUS_StreamCreateFile"}
  else none

/-- An environment in which the add-on headers are present and the core
header is not. -/
def addOnsOnlyEnv : Env := fun f =>
  if f = "bassflac.h" then some {"BASS_FLAC_StreamCreateFile"}
  else if f = "bassdsd.h" then some {"BASS_DSD_StreamCreateFile"}
  else if f = "bassopus.h" then some {"BASS_OPUS_StreamCreateFile"}
  else none

/-- The sample environment with a WavPack header added. -/
def sampleEnvWithWavPack : Env := fun f =>
  if f = "basswv.h" then some {"BASS_WV_StreamCreateFile"} else sampleEnv f

/-- An environment in which no header file is present. -/
def emptyEnv : Env := fun _ => none

/-- The state the header leaves in the sample environment. -/
def sampleFinal : PPState :=
  { macros := {"BASS_Bridging_Header_h"},
    symbols := {"BASS_Init", "BASS_Free", "BASS_FLAC_StreamCreateFile",
      "BASS_DSD_StreamCreateFile", "BASS_OPUS_StreamCreateFile"},
    imported := {"bassopus.h", "bassdsd.h", "bassflac.h", "bass.h"},
    conds := [] }

/-- The state just before line 16 of the header with line 15 commented out,
in the sample environment. -/
def sampleBeforeDsd : PPState :=
  { macros := {"BASS_Bridging_Header_h"},
    symbols := {"BASS_Init", "BASS_Free"},
    imported := {"bass.h"},
    conds := [true] }

/-! ## The lines of the header and of its variants -/

/-- The lexed header when the imports of the core, FLAC, DSD and OPUS headers
are kept (`true`) or commented out (`false`). -/
def variantLines (core flac dsd opus : Bool) : List Line :=
  [.blank, .blank, .blank, .blank, .blank, .blank, .blank,
   .directive (.ifNotDefined "BASS_Bridging_Header_h"),
   .directive (.define "BASS_Bridging_Header_h"),
   .blank, .blank,
   if core then .directive (.importFile "bass.h") else .blank,
   .blank, .blank,
   if flac then .directive (.importFile "bassflac.h") else .blank,
   if dsd then .directive (.importFile "bassdsd.h") else .blank,
   if opus then .directive (.importFile "bassopus.h") else .blank,
   .blank, .blank, .blank, .blank, .blank,
   .directive .endif]

theorem lex_header : lex BASS_Bridging_Header_h = variantLines true true true true := by
  decide

theorem lex_commentOut_all :
    ∀ S ∈ ({12, 15, 16, 17} : Finset Nat).powerset,
      lex (commentOut S BASS_Bridging_Header_h)
        = variantLines (decide (12 ∉ S)) (decide (15 ∉ S)) (decide (16 ∉ S))
            (decide (17 ∉ S)) := by
  decide

theorem lex_commentOut (S : Finset Nat) (hS : S ⊆ {12, 15, 16, 17}) :
    lex (commentOut S BASS_Bridging_Header_h)
      = variantLines (decide (12 ∉ S)) (decide (15 ∉ S)) (decide (16 ∉ S))
          (decide (17 ∉ S)) :=
  lex_commentOut_all S (Finset.mem_powerset.2 hS)

/-! ## Running the preprocessor -/

/-- A line reads the environment only at the file it imports. -/
theorem step_congr (env1 env2 : Env) (st : PPState) (l : Line)
    (h : ∀ f ∈ importsOf [l], env1 f = env2 f) :
    step env1 st l = step env2 st l := by
  cases l with
  | blank => rfl
  | text => rfl
  | directive d =>
    cases d <;> try rfl
    case importFile f =>
      have hf : env1 f = env2 f := h f (by simp [importsOf])
      simp only [step, execDirective, hf]

theorem importsOf_cons_subset (l : Line) (ls : List Line) :
    ∀ f ∈ importsOf [l], f ∈ importsOf (l :: ls) := by
  intro f hf
  cases l with
  | blank => simp [importsOf] at hf
  | text => simp [importsOf] at hf
  | directive d => cases d <;> simp_all [importsOf]

theorem importsOf_tail_subset (l : Line) (ls : List Line) :
    ∀ f ∈ importsOf ls, f ∈ importsOf (l :: ls) := by
  intro f hf
  cases l with
  | blank => simpa [importsOf] using hf
  | text => simpa [importsOf] using hf
  | directive d => cases d <;> simp_all [importsOf]

/-- Two environments that agree on every file a list of lines imports give
the same run. -/
theorem run_congr (env1 env2 : Env) (ls : List Line)
    (h : ∀ f ∈ importsOf ls, env1 f = env2 f) (st : PPState) :
    run env1 st ls = run env2 st ls := by
  induction ls generalizing st with
  | nil => rfl
  | cons l ls ih =>
    have h1 : step env1 st l = step env2 st l :=
      step_congr env1 env2 st l fun f hf => h f (importsOf_cons_subset l ls f hf)
    have h2 : ∀ f ∈ importsOf ls, env1 f = env2 f :=
      fun f hf => h f (importsOf_tail_subset l ls f hf)
    simp only [run, h1]
    cases step env2 st l with
    | error e => rfl
    | ok st1 => exact ih h2 st1

/-- The include guard: from a state in which the guard macro is defined, the
header and each of its variants leaves the state as it is, whatever the
environment holds. -/
theorem processFrom_guarded (env : Env) (st : PPState) (c f d o : Bool)
    (text : List String) (hlex : lex text = variantLines c f d o)
    (hg : guardMacro ∈ st.macros) :
    processFrom env st text = .ok st := by
  have hg2 : "BASS_Bridging_Header_h" ∈ st.macros := hg
  unfold processFrom
  rw [hlex]
  cases c <;> cases f <;> cases d <;> cases o <;>
    simp [variantLines, run, step, execDirective, PPState.active, hg2]

/-- The state the header leaves when its four files are present. -/
theorem process_header_present (env : Env) (b f d o : Finset Symbol)
    (hb : env "bass.h" = some b) (hf : env "bassflac.h" = some f)
    (hd : env "bassdsd.h" = some d) (ho : env "bassopus.h" = some o) :
    process env BASS_Bridging_Header_h
      = .ok { macros := {guardMacro},
              symbols := b ∪ f ∪ d ∪ o,
              imported := {"bassopus.h", "bassdsd.h", "bassflac.h", "bass.h"},
              conds := [] } := by
  unfold process processFrom
  rw [lex_header]
  simp [variantLines, run, step, execDirective, PPState.active, PPState.initial, guardMacro,
    hb, hf, hd, ho]

/-- The header stops at the first of its four files that is absent. -/
theorem process_header_absent (env : Env)
    (h : env "bass.h" = none ∨ env "bassflac.h" = none ∨ env "bassdsd.h" = none
      ∨ env "bassopus.h" = none) :
    ∃ file, process env BASS_Bridging_Header_h = .error (.fileNotFound file) := by
  unfold process processFrom
  rw [lex_header]
  cases hb : env "bass.h" <;> cases hf : env "bassflac.h" <;> cases hd : env "bassdsd.h" <;>
    cases ho : env "bassopus.h" <;>
    simp_all [variantLines, run, step, execDirective, PPState.active, PPState.initial]

theorem process_header_core_absent (env : Env) (h : env "bass.h" = none) :
    process env BASS_Bridging_Header_h = .error (.fileNotFound "bass.h") := by
  unfold process processFrom
  rw [lex_header]
  simp [variantLines, run, step, execDirective, PPState.active, PPState.initial, h]

/-! ## The claims -/

/-- C1: in every environment in which `bass.h`, `bassflac.h`, `bassdsd.h` and
`bassopus.h` are present, processing the header succeeds and the symbols it
makes visible are exactly the union of the symbols of those four files. -/
theorem C1_all_present_exports_union (env : Env) (b f d o : Finset Symbol)
    (hb : env "bass.h" = some b) (hf : env "bassflac.h" = some f)
    (hd : env "bassdsd.h" = some d) (ho : env "bassopus.h" = some o) :
    ∃ st, process env BASS_Bridging_Header_h = .ok st ∧ st.symbols = b ∪ f ∪ d ∪ o :=
  ⟨_, process_header_present env b f d o hb hf hd ho, rfl⟩

theorem C1_all_present_exports_union_witness :
    ∃ st, process sampleEnv BASS_Bridging_Header_h = .ok st ∧
      st.symbols = {"BASS_Init", "BASS_Free"} ∪ {"BASS_FLAC_StreamCreateFile"}
        ∪ {"BASS_DSD_StreamCreateFile"} ∪ {"BASS_OPUS_StreamCreateFile"} :=
  C1_all_present_exports_union sampleEnv _ _ _ _ rfl rfl rfl rfl

/-- C2: with the four files present and their symbol sets pairwise disjoint,
the header with the import of one add-on commented out (line 15 for
`bassflac.h`, line 16 for `bassdsd.h`, line 17 for `bassopus.h`) still
processes successfully, makes visible exactly the symbols of `bass.h` and of
the two other add-ons, and makes visible no symbol of the disabled add-on. -/
theorem C2_disabling_one_addon (env : Env) (b f d o : Finset Symbol)
    (hb : env "bass.h" = some b) (hf : env "bassflac.h" = some f)
    (hd : env "bassdsd.h" = some d) (ho : env "bassopus.h" = some o)
    (hbf : Disjoint b f) (hbd : Disjoint b d) (hbo : Disjoint b o)
    (hfd : Disjoint f d) (hfo : Disjoint f o) (hdo : Disjoint d o) :
    (∃ st, process env (commentOut {15} BASS_Bridging_Header_h) = .ok st ∧
        st.symbols = b ∪ d ∪ o ∧ Disjoint st.symbols f) ∧
    (∃ st, process env (commentOut {16} BASS_Bridging_Header_h) = .ok st ∧
        st.symbols = b ∪ f ∪ o ∧ Disjoint st.symbols d) ∧
    (∃ st, process env (commentOut {17} BASS_Bridging_Header_h) = .ok st ∧
        st.symbols = b ∪ f ∪ d ∧ Disjoint st.symbols o) := by
  refine ⟨?_, ?_, ?_⟩
  · unfold process processFrom
    rw [lex_commentOut {15} (by decide)]
    simp [variantLines, run, step, execDirective, PPState.active, PPState.initial,
      hb, hd, ho, hbf, hfd.symm, hfo.symm]
  · unfold process processFrom
    rw [lex_commentOut {16} (by decide)]
    simp [variantLines, run, step, execDirective, PPState.active, PPState.initial,
      hb, hf, ho, hbd, hfd, hdo.symm]
  · unfold process processFrom
    rw [lex_commentOut {17} (by decide)]
    simp [variantLines, run, step, execDirective, PPState.active, PPState.initial,
      hb, hf, hd, hbo, hfo, hdo]

theorem C2_disabling_one_addon_witness :
    (∃ st, process sampleEnv (commentOut {15} BASS_Bridging_Header_h) = .ok st ∧
        st.symbols = {"BASS_Init", "BASS_Free"} ∪ {"BASS_DSD_StreamCreateFile"}
          ∪ {"BASS_OPUS_StreamCreateFile"} ∧
        Disjoint st.symbols {"BASS_FLAC_StreamCreateFile"}) ∧
    (∃ st, process sampleEnv (commentOut {16} BASS_Bridging_Header_h) = .ok st ∧
        st.symbols = {"BASS_Init", "BASS_Free"} ∪ {"BASS_FLAC_StreamCreateFile"}
          ∪ {"BASS_OPUS_StreamCreateFile"} ∧
        Disjoint st.symbols {"BASS_DSD_StreamCreateFile"}) ∧
    (∃ st, process sampleEnv (commentOut {17} BASS_Bridging_Header_h) = .ok st ∧
        st.symbols = {"BASS_Init", "BASS_Free"} ∪ {"BASS_FLAC_StreamCreateFile"}
          ∪ {"BASS_DSD_StreamCreateFile"} ∧
        Disjoint st.symbols {"BASS_OPUS_StreamCreateFile"}) :=
  C2_disabling_one_addon sampleEnv _ _ _ _ rfl rfl rfl rfl
    (by decide) (by decide) (by decide) (by decide) (by decide) (by decide)

/-- C3: in every environment in which `bass.h` is absent, whatever else is
present, processing the header ends in an error (file not found for
`bass.h`); it does not succeed with any state. -/
theorem C3_core_absent_fails (env : Env) (h : env "bass.h" = none) :
    process env BASS_Bridging_Header_h = .error (.fileNotFound "bass.h") ∧
      ¬ ∃ st, process env BASS_Bridging_Header_h = .ok st := by
  have hp := process_header_core_absent env h
  refine ⟨hp, ?_⟩
  rintro ⟨st, hst⟩
  rw [hp] at hst
  cases hst

theorem C3_core_absent_fails_witness :
    process addOnsOnlyEnv BASS_Bridging_Header_h = .error (.fileNotFound "bass.h") ∧
      ¬ ∃ st, process addOnsOnlyEnv BASS_Bridging_Header_h = .ok st :=
  C3_core_absent_fails addOnsOnlyEnv rfl

/-- C4: `basswv.h` is not among the header's imports, and two environments
that agree on `bass.h`, `bassflac.h`, `bassdsd.h` and `bassopus.h` give the
same result (the same error, or the same final state), whatever each of them
holds for `basswv.h` or any other file. -/
theorem C4_wavpack_not_read (env1 env2 : Env)
    (hb : env1 "bass.h" = env2 "bass.h") (hf : env1 "bassflac.h" = env2 "bassflac.h")
    (hd : env1 "bassdsd.h" = env2 "bassdsd.h") (ho : env1 "bassopus.h" = env2 "bassopus.h") :
    "basswv.h" ∉ importsOf (lex BASS_Bridging_Header_h) ∧
      process env1 BASS_Bridging_Header_h = process env2 BASS_Bridging_Header_h := by
  have himp : importsOf (lex BASS_Bridging_Header_h) = ["bass.h", "bassflac.h", "bassdsd.h", "bassopus.h"] := by
    decide
  refine ⟨by rw [himp]; decide, ?_⟩
  have hagree : ∀ f ∈ importsOf (lex BASS_Bridging_Header_h), env1 f = env2 f := by
    rw [himp]
    intro f hmem
    simp only [List.mem_cons, List.mem_singleton, List.not_mem_nil, or_false] at hmem
    rcases hmem with rfl | rfl | rfl | rfl <;> assumption
  unfold process processFrom
  rw [run_congr env1 env2 (lex BASS_Bridging_Header_h) hagree]

theorem C4_wavpack_not_read_witness :
    "basswv.h" ∉ importsOf (lex BASS_Bridging_Header_h) ∧
      process sampleEnv BASS_Bridging_Header_h = process sampleEnvWithWavPack BASS_Bridging_Header_h :=
  C4_wavpack_not_read sampleEnv sampleEnvWithWavPack rfl rfl rfl rfl

/-- A successful `declare` appends the new declarations to the visible ones. -/
theorem declare_ok_eq (ds visible out : List Decl) (h : declare visible ds = .ok out) :
    out = visible ++ ds := by
  induction ds generalizing visible with
  | nil =>
    simp only [declare, Except.ok.injEq] at h
    simp [← h]
  | cons d ds ih =>
    cases hc : clashes visible d with
    | true => simp [declare, hc] at h
    | false =>
      simp only [declare, hc, Bool.false_eq_true, if_false] at h
      simpa using ih (visible ++ [d]) h

theorem namesOf_append (xs ys : List Decl) : namesOf (xs ++ ys) = namesOf xs ∪ namesOf ys := by
  simp [namesOf, List.toFinset_append]

/-- One line of a build that succeeds is one line of the preprocessor over
the symbol names. -/
theorem buildStep_toPPState (env : DeclEnv) (st st1 : BuildState) (l : Line)
    (h : buildStep env st l = .ok st1) :
    step env.toEnv st.toPPState l = .ok st1.toPPState := by
  cases l with
  | blank =>
    simp only [buildStep, Except.ok.injEq] at h
    simp [step, h]
  | text =>
    cases ha : st.conds.all id <;>
      simp_all [buildStep, step, BuildState.active, PPState.active, BuildState.toPPState]
  | directive dir =>
    cases dir with
    | importFile f =>
      cases ha : st.conds.all id with
      | false =>
        simp_all [buildStep, buildDirective, step, execDirective, BuildState.active,
          PPState.active, BuildState.toPPState]
      | true =>
        cases hf : env f with
        | none =>
          simp [buildStep, buildDirective, BuildState.active, ha, hf] at h
        | some ds =>
          by_cases hi : f ∈ st.imported
          · simp [buildStep, buildDirective, BuildState.active, ha, hf, hi] at h
            simp [step, execDirective, PPState.active, BuildState.toPPState, DeclEnv.toEnv,
              ha, hf, hi, ← h]
          · cases hd : declare st.decls ds with
            | error e =>
              simp [buildStep, buildDirective, BuildState.active, ha, hf, hi, hd] at h
            | ok visible =>
              have hv := declare_ok_eq ds st.decls visible hd
              simp [buildStep, buildDirective, BuildState.active, ha, hf, hi, hd] at h
              simp [step, execDirective, PPState.active, BuildState.toPPState, DeclEnv.toEnv,
                ha, hf, hi, ← h, hv, namesOf_append]
    | endif =>
      cases hc : st.conds <;>
        simp_all [buildStep, buildDirective, step, execDirective, BuildState.toPPState]
      simp [← h, hc]
    | ifDefined m =>
      simp only [buildStep, buildDirective, Except.ok.injEq] at h
      simp [step, execDirective, BuildState.toPPState, ← h]
    | ifNotDefined m =>
      simp only [buildStep, buildDirective, Except.ok.injEq] at h
      simp [step, execDirective, BuildState.toPPState, ← h]
    | define m =>
      cases ha : st.conds.all id <;>
        simp_all [buildStep, buildDirective, step, execDirective, BuildState.active,
          PPState.active, BuildState.toPPState]
      simp [← h]
    | undefine m =>
      cases ha : st.conds.all id <;>
        simp_all [buildStep, buildDirective, step, execDirective, BuildState.active,
          PPState.active, BuildState.toPPState]
      simp [← h]
    | other =>
      cases ha : st.conds.all id <;>
        simp_all [buildStep, buildDirective, step, execDirective, BuildState.active,
          PPState.active, BuildState.toPPState]

theorem buildRun_toPPState (env : DeclEnv) (ls : List Line) (st st1 : BuildState)
    (h : buildRun env st ls = .ok st1) :
    run env.toEnv st.toPPState ls = .ok st1.toPPState := by
  induction ls generalizing st with
  | nil =>
    simp only [buildRun, Except.ok.injEq] at h
    simp [run, h]
  | cons l ls ih =>
    cases hs : buildStep env st l with
    | error e => simp [buildRun, hs] at h
    | ok st2 =>
      simp only [buildRun, hs] at h
      simp only [run, buildStep_toPPState env st st2 l hs]
      exact ih st2 h

/-- The preprocessor over symbol names is the build with the types of the
declarations left out: when the build of a file succeeds, processing the file
over the names the header files declare succeeds too, with the names of the
declarations the build made visible. -/
theorem build_refines_process (env : DeclEnv) (text : List String) (st : BuildState)
    (h : build env text = .ok st) :
    process env.toEnv text = .ok st.toPPState := by
  unfold build at h
  cases hr : buildRun env BuildState.initial (lex text) with
  | error e => simp [hr] at h
  | ok st1 =>
    have hrun := buildRun_toPPState env (lex text) BuildState.initial st1 hr
    by_cases hc : st1.conds = []
    · simp [hr, hc] at h
      have hinit : BuildState.initial.toPPState = PPState.initial := by
        simp [BuildState.toPPState, BuildState.initial, PPState.initial, namesOf]
      rw [hinit] at hrun
      unfold process processFrom
      have hinit2 : ({ PPState.initial with conds := [] } : PPState) = PPState.initial := rfl
      rw [hinit2, hrun]
      simp [BuildState.toPPState, hc, PPState.initial, ← h]
    · simp [hr, hc] at h

/-- C6, as stated, fails: in the file as shipped the four imports are active,
and in the environment that holds no header file processing the shipped
header does not succeed. -/
theorem C6_shipped_imports_commented_counterexample :
    importsOf (lex BASS_Bridging_Header_h) = ["bass.h", "bassflac.h", "bassdsd.h", "bassopus.h"] ∧
      emptyEnv "bass.h" = none ∧ emptyEnv "bassflac.h" = none ∧
      emptyEnv "bassdsd.h" = none ∧ emptyEnv "bassopus.h" = none ∧
      ¬ ∃ st, process emptyEnv BASS_Bridging_Header_h = .ok st := by
  refine ⟨by decide, rfl, rfl, rfl, rfl, ?_⟩
  rintro ⟨st, hst⟩
  rw [process_header_core_absent emptyEnv rfl] at hst
  cases hst

/-- C6, amended: in the file as shipped the imports of `bass.h`, `bassflac.h`,
`bassdsd.h` and `bassopus.h` are active, so in an environment where none of
those headers is present processing the shipped header fails (file not found
for `bass.h`); it is the header with those four import lines (12, 15, 16, 17)
commented out that succeeds there, defining the guard macro and making no
symbol visible. -/
theorem C6_succeeds_without_bass_only_when_commented (env : Env)
    (hb : env "bass.h" = none) (_hf : env "bassflac.h" = none)
    (_hd : env "bassdsd.h" = none) (_ho : env "bassopus.h" = none) :
    importsOf (lex BASS_Bridging_Header_h) = ["bass.h", "bassflac.h", "bassdsd.h", "bassopus.h"] ∧
      process env BASS_Bridging_Header_h = .error (.fileNotFound "bass.h") ∧
      importsOf (lex (commentOut {12, 15, 16, 17} BASS_Bridging_Header_h)) = [] ∧
      process env (commentOut {12, 15, 16, 17} BASS_Bridging_Header_h)
        = .ok { macros := {guardMacro}, symbols := ∅, imported := ∅, conds := [] } := by
  refine ⟨by decide, process_header_core_absent env hb, by decide, ?_⟩
  unfold process processFrom
  rw [lex_commentOut {12, 15, 16, 17} (by decide)]
  simp [variantLines, run, step, execDirective, PPState.active, PPState.initial, guardMacro]

theorem C6_succeeds_without_bass_only_when_commented_witness :
    importsOf (lex BASS_Bridging_Header_h) = ["bass.h", "bassflac.h", "bassdsd.h", "bassopus.h"] ∧
      process emptyEnv BASS_Bridging_Header_h = .error (.fileNotFound "bass.h") ∧
      importsOf (lex (commentOut {12, 15, 16, 17} BASS_Bridging_Header_h)) = [] ∧
      process emptyEnv (commentOut {12, 15, 16, 17} BASS_Bridging_Header_h)
        = .ok { macros := {guardMacro}, symbols := ∅, imported := ∅, conds := [] } :=
  C6_succeeds_without_bass_only_when_commented emptyEnv rfl rfl rfl rfl

/-- C7: inclusion is idempotent. Processing the header and then processing it
again from the state the first pass left gives the same result as processing
it once; and after a first pass that succeeded the guard macro is defined and
a second pass, in any environment at all (so no file is read), returns the
state unchanged: same macros, same visible symbols, same imported files. -/
theorem C7_inclusion_idempotent (env : Env) :
    ((process env BASS_Bridging_Header_h).bind fun st => processFrom env st BASS_Bridging_Header_h)
        = process env BASS_Bridging_Header_h ∧
      ∀ st1, process env BASS_Bridging_Header_h = .ok st1 →
        guardMacro ∈ st1.macros ∧ ∀ env2, processFrom env2 st1 BASS_Bridging_Header_h = .ok st1 := by
  have key : ∀ st1, process env BASS_Bridging_Header_h = .ok st1 →
      guardMacro ∈ st1.macros ∧ ∀ env2, processFrom env2 st1 BASS_Bridging_Header_h = .ok st1 := by
    intro st1 h1
    have hg : guardMacro ∈ st1.macros := by
      by_cases hall : env "bass.h" = none ∨ env "bassflac.h" = none ∨ env "bassdsd.h" = none
          ∨ env "bassopus.h" = none
      · obtain ⟨file, hfile⟩ := process_header_absent env hall
        rw [hfile] at h1
        cases h1
      · simp only [not_or, ← ne_eq, Option.ne_none_iff_exists'] at hall
        obtain ⟨⟨b, hb⟩, ⟨f, hf⟩, ⟨d, hd⟩, ⟨o, ho⟩⟩ := hall
        rw [process_header_present env b f d o hb hf hd ho] at h1
        cases h1
        simp
    exact ⟨hg, fun env2 => processFrom_guarded env2 st1 true true true true BASS_Bridging_Header_h
      lex_header hg⟩
  refine ⟨?_, key⟩
  cases h : process env BASS_Bridging_Header_h with
  | error e => rfl
  | ok st1 => exact (key st1 h).2 env

theorem C7_inclusion_idempotent_witness :
    process sampleEnv BASS_Bridging_Header_h = .ok sampleFinal ∧
      guardMacro ∈ sampleFinal.macros ∧
      ∀ env2, processFrom env2 sampleFinal BASS_Bridging_Header_h = .ok sampleFinal :=
  ⟨rfl, (C7_inclusion_idempotent sampleEnv).2 sampleFinal rfl⟩

/-- In the header and its variants an add-on import stands at index 14, 15
or 16 (lines 15 to 17). -/
theorem addOn_import_index (c f d o : Bool) (k : Nat) (file : String)
    (hk : (variantLines c f d o)[k]? = some (.directive (.importFile file)))
    (hne : file ≠ "bass.h") : k = 14 ∨ k = 15 ∨ k = 16 := by
  have hne2 : "bass.h" ≠ file := Ne.symm hne
  rcases Nat.lt_or_ge k 23 with hlt | hge
  · interval_cases k <;> revert hk <;> cases c <;> cases f <;> cases d <;> cases o <;>
      simp_all [variantLines]
  · have hlen : (variantLines c f d o).length ≤ k := by simpa [variantLines] using hge
    rw [List.getElem?_eq_none hlen] at hk
    cases hk

/-- With the core import kept, the state reached just before any of lines 15
to 17 is in a kept group and holds the core header's symbols. -/
theorem core_visible_before_addOns (env : Env) (f d o : Bool) (k : Nat) (st : PPState)
    (hk : k = 14 ∨ k = 15 ∨ k = 16)
    (hrun : run env PPState.initial ((variantLines true f d o).take k) = .ok st) :
    st.active = true ∧ ∃ b, env "bass.h" = some b ∧ b ⊆ st.symbols := by
  rcases hk with rfl | rfl | rfl <;> revert hrun <;>
    cases hb : env "bass.h" <;> cases hf : env "bassflac.h" <;> cases hd : env "bassdsd.h" <;>
    cases f <;> cases d <;> cases o <;>
    simp [variantLines, run, step, execDirective, PPState.active, PPState.initial, hb, hf, hd]
  all_goals (rintro rfl; simp)

/-- C8: in the header, and in every variant obtained by commenting out any
subset of the add-on imports (lines 15, 16, 17), the first import is that of
`bass.h` and every later import is an add-on; and whenever a line importing
an add-on is reached, the preprocessor is in a kept group, `bass.h` is
present and its symbols are already visible. -/
theorem C8_core_import_precedes_addOns (S : Finset Nat) (hS : S ⊆ {15, 16, 17}) :
    (∃ rest, importsOf (lex (commentOut S BASS_Bridging_Header_h)) = "bass.h" :: rest ∧
        ∀ file ∈ rest, file ∈ ["bassflac.h", "bassdsd.h", "bassopus.h"]) ∧
      ∀ (env : Env) (k : Nat) (file : String) (st : PPState),
        (lex (commentOut S BASS_Bridging_Header_h))[k]? = some (.directive (.importFile file)) →
        file ≠ "bass.h" →
        run env PPState.initial ((lex (commentOut S BASS_Bridging_Header_h)).take k) = .ok st →
        st.active = true ∧ ∃ b, env "bass.h" = some b ∧ b ⊆ st.symbols := by
  have h12 : 12 ∉ S := fun h => by
    have := hS h
    simp at this
  rw [lex_commentOut S (hS.trans (by decide))]
  simp only [h12, not_false_eq_true, decide_True]
  generalize decide (15 ∉ S) = f
  generalize decide (16 ∉ S) = d
  generalize decide (17 ∉ S) = o
  constructor
  · cases f <;> cases d <;> cases o <;> simp [variantLines, importsOf]
  · intro env k file st hk hne hrun
    exact core_visible_before_addOns env f d o k st (addOn_import_index true f d o k file hk hne)
      hrun

theorem C8_core_import_precedes_addOns_witness :
    ({15} : Finset Nat) ⊆ {15, 16, 17} ∧
      (∃ rest, importsOf (lex (commentOut {15} BASS_Bridging_Header_h)) = "bass.h" :: rest ∧
        ∀ file ∈ rest, file ∈ ["bassflac.h", "bassdsd.h", "bassopus.h"]) ∧
      (lex (commentOut {15} BASS_Bridging_Header_h))[15]? = some (.directive (.importFile "bassdsd.h")) ∧
      run sampleEnv PPState.initial ((lex (commentOut {15} BASS_Bridging_Header_h)).take 15)
        = .ok sampleBeforeDsd ∧
      sampleBeforeDsd.active = true ∧
      ∃ b, sampleEnv "bass.h" = some b ∧ b ⊆ sampleBeforeDsd.symbols :=
  ⟨by decide, (C8_core_import_precedes_addOns {15} (by decide)).1, by decide, by decide,
    (C8_core_import_precedes_addOns {15} (by decide)).2 sampleEnv 15 "bassdsd.h"
      sampleBeforeDsd (by decide) (by decide) (by decide)⟩

end musiQ.Engine
